import Mathlib

/-!
Verification of the Crypto-Quant-Analytics backend against its specification.

The definitions below are shallow embeddings of the Python sources:
  - `src/backend/collector.py`   (BinanceCollector)
  - `src/backend/resampler.py`   (DataResampler)
  - `src/utils/alert_manager.py` (Alert, AlertManager)
  - `src/analytics/engine.py`    (AnalyticsEngine)

Machine floats are modelled over the rationals; where IEEE special values
matter (the rolling z-score), an explicit float domain with nan and the
infinities is used.  Python exceptions are modelled with Option.  External
library primitives that are not part of the repository (numpy sqrt,
statsmodels adfuller, the Python expression evaluator used for alert
conditions) are taken as function parameters of the embedding.
-/

namespace CQA

/-! ## Collector (src/backend/collector.py)

A normalized tick: the dictionary built by BinanceCollector._normalize_tick. -/

structure NTick where
  symbol : String
  timestamp : ℚ
  price : ℚ
  size : ℚ
  event_time : Option ℕ
  trade_id : Option ℕ
  is_buyer_maker : Bool
deriving DecidableEq, Inhabited

/-- A raw Binance trade message after JSON decoding.  Field `p` (price) and
`q` (quantity) arrive as JSON strings; `tradeTime` and `eventTime` stand for
the JSON keys "T" and "E". -/
structure RawMsg where
  e : Option String
  s : Option String
  t : Option ℕ
  p : Option String
  q : Option String
  tradeTime : Option ℕ
  eventTime : Option ℕ
  m : Option Bool
deriving DecidableEq, Inhabited

/-- Numeric value of a list of decimal digit characters. -/
def digitsVal (cs : List Char) : ℕ :=
  cs.foldl (fun a c => a * 10 + (c.toNat - 48)) 0

/-- Parse of a plain decimal string, as accepted by Python float():
optional sign, digits, optionally a dot with further digits, at least one
digit in total.  (Exponent forms and inf/nan literals do not occur in the
feed and are not modelled.) -/
def parseDecCore (cs : List Char) : Option ℚ :=
  match cs.splitOn '.' with
  | [w] =>
      if w ≠ [] ∧ w.all Char.isDigit then some (digitsVal w) else none
  | [w, f] =>
      if (w ++ f) ≠ [] ∧ w.all Char.isDigit ∧ f.all Char.isDigit then
        some ((digitsVal w : ℚ) + (digitsVal f : ℚ) / (10 : ℚ) ^ f.length)
      else none
  | _ => none

def parseDec (str : String) : Option ℚ :=
  match str.toList with
  | '-' :: rest => (parseDecCore rest).map (fun q => -q)
  | '+' :: rest => parseDecCore rest
  | cs => parseDecCore cs

/-- Python float(data.get(key, 0)): an absent field defaults to the integer 0,
which converts to 0.0; a present field is a string that must parse as a
number, otherwise float() raises. -/
def pyFloatField (f : Option String) : Option ℚ :=
  match f with
  | none => some 0
  | some str => parseDec str

/-- BinanceCollector._normalize_tick.  `nowMs` models time.time()*1000, the
default used when both "T" and "E" are absent.  Any exception inside the try
block (a float() parse failure) yields None. -/
def normalize_tick (nowMs : ℕ) (data : RawMsg) : Option NTick :=
  match pyFloatField data.p, pyFloatField data.q with
  | some price, some size =>
      some { symbol := (data.s.getD "").toLower
             timestamp := ((data.tradeTime.getD (data.eventTime.getD nowMs)) : ℚ) / 1000
             price := price
             size := size
             event_time := data.tradeTime
             trade_id := data.t
             is_buyer_maker := data.m.getD false }
  | _, _ => none

/-- BinanceCollector state: the mutable attributes set in __init__. -/
structure BinanceCollector where
  symbols : List String
  running : Bool
  ws_connections : List String
  message_buffer : List NTick
deriving DecidableEq, Inhabited

/-- BinanceCollector._on_message, restricted to the buffer (the optional user
callback receives the same tick and does not touch the collector):
only messages with event type "trade" are normalized; a tick is appended to
the buffer exactly when normalization succeeds.  Returns the new buffer and
the produced tick, if any. -/
def on_message (nowMs : ℕ) (buf : List NTick) (data : RawMsg) :
    List NTick × Option NTick :=
  if data.e = some "trade" then
    match normalize_tick nowMs data with
    | some n => (buf ++ [n], some n)
    | none => (buf, none)
  else (buf, none)

def connUrl (symbol : String) : String :=
  "wss://fstream.binance.com/ws/" ++ symbol ++ "@trade"

/-- The error type the specification describes for Collector lifecycle
misuse.  Modelled from the spec: the source code defines no such type. -/
inductive CollectorError where
  | AlreadyRunning
  | NotRunning
deriving DecidableEq

/-- BinanceCollector.start.  The Python method returns None on every path;
the middle component records the (absent) error value the caller receives,
and the last component the log lines emitted.  When already running the
method logs a warning and returns with no state change. -/
def BinanceCollector.start (c : BinanceCollector) :
    BinanceCollector × Option CollectorError × List String :=
  if c.running then
    (c, none, ["Collector already running"])
  else
    ({ c with running := true, ws_connections := c.symbols.map connUrl },
     none,
     c.symbols.map (fun s => "Starting WebSocket for " ++ s) ++
       ["Started collectors for " ++ toString c.symbols.length ++ " symbols"])

/-- Modelled from the spec: start(symbols) -> Result<(), CollectorError>
"fails with AlreadyRunning if called while active".  Stated from the spec's
words, for comparison with the code's BinanceCollector.start. -/
def startSpec (c : BinanceCollector) : Except CollectorError BinanceCollector :=
  if c.running then .error .AlreadyRunning
  else .ok { c with running := true, ws_connections := c.symbols.map connUrl }

/-- BinanceCollector.get_buffered_messages: under the buffer lock, copy the
buffer and, when `clear` is set, replace it by the empty list; both happen in
the same atomic step.  Returns the copy and the new state. -/
def BinanceCollector.get_buffered_messages (clear : Bool) (c : BinanceCollector) :
    List NTick × BinanceCollector :=
  (c.message_buffer, if clear then { c with message_buffer := [] } else c)

/-- BinanceCollector.get_message_count. -/
def BinanceCollector.get_message_count (c : BinanceCollector) : ℕ :=
  c.message_buffer.length

/-- The buffer append performed by _on_message for one normalized tick. -/
def BinanceCollector.bufferTick (c : BinanceCollector) (n : NTick) : BinanceCollector :=
  { c with message_buffer := c.message_buffer ++ [n] }

/-! ## Alert manager (src/utils/alert_manager.py) -/

/-- Evaluation context: the variable bindings passed to evaluate_alerts. -/
abbrev Ctx := List (String × ℚ)

/-- The Python expression evaluator applied to a condition string under a
context.  eval is an interpreter primitive external to the repository, so it
is a parameter of the embedding; `none` models an exception, which
Alert.evaluate turns into False. -/
abbrev PyEval := String → Ctx → Option Bool

/-- A single alert rule.  The optional callback is not modelled: the claims
concern rules added without one (callback=None). -/
structure Alert where
  condition : String
  triggered : Bool
  triggered_at : Option String
  trigger_count : ℕ
deriving DecidableEq, Inhabited

/-- Alert.__init__. -/
def Alert.new (condition : String) : Alert :=
  { condition := condition, triggered := false, triggered_at := none, trigger_count := 0 }

/-- Alert.evaluate: eval the condition under the context; any exception is
caught and becomes False. -/
def Alert.evaluate (evalFn : PyEval) (ctx : Ctx) (a : Alert) : Bool :=
  (evalFn a.condition ctx).getD false

/-- Alert.trigger: mark triggered, stamp triggered_at with the current time
string, increment the trigger counter. -/
def Alert.trigger (now : String) (a : Alert) : Alert :=
  { a with triggered := true, triggered_at := some now, trigger_count := a.trigger_count + 1 }

/-- One entry of AlertManager.alert_history, as built by _record_alert. -/
structure AlertEvent where
  condition : String
  triggered_at : Option String
  trigger_count : ℕ
  context : Ctx
deriving DecidableEq

/-- The history entry _record_alert appends; it reads the alert's fields
after the trigger. -/
def mkEvent (a : Alert) (ctx : Ctx) : AlertEvent :=
  { condition := a.condition, triggered_at := a.triggered_at
    trigger_count := a.trigger_count, context := ctx }

/-- The append-and-trim step of AlertManager._record_alert: append one entry,
then keep only the last 1000. -/
def recordPush (h : List AlertEvent) (e : AlertEvent) : List AlertEvent :=
  let h' := h ++ [e]
  if 1000 < h'.length then h'.drop (h'.length - 1000) else h'

structure AlertManager where
  alerts : List Alert
  alert_history : List AlertEvent
deriving DecidableEq

/-- AlertManager.add_alert (the created alert is also returned to the caller
in the source; here the new state suffices). -/
def AlertManager.add_alert (condition : String) (m : AlertManager) : AlertManager :=
  { m with alerts := m.alerts ++ [Alert.new condition] }

/-- AlertManager.remove_alert: keep exactly the alerts whose condition
differs from the given one. -/
def AlertManager.remove_alert (condition : String) (m : AlertManager) : AlertManager :=
  { m with alerts := m.alerts.filter (fun a => decide (a.condition ≠ condition)) }

/-- Does this alert fire on this call: condition true and not yet triggered
(the order of the two tests follows evaluate_alerts). -/
def firesNow (evalFn : PyEval) (ctx : Ctx) (a : Alert) : Bool :=
  a.evaluate evalFn ctx && !a.triggered

/-- The per-alert step of AlertManager.evaluate_alerts: a rule that fires is
triggered in place and one history entry is recorded; every other rule is
left untouched. -/
def evalStep (evalFn : PyEval) (now : String) (ctx : Ctx)
    (acc : List Alert × List AlertEvent) (a : Alert) : List Alert × List AlertEvent :=
  if firesNow evalFn ctx a then
    let a' := a.trigger now
    (acc.1 ++ [a'], recordPush acc.2 (mkEvent a' ctx))
  else
    (acc.1 ++ [a], acc.2)

/-- AlertManager.evaluate_alerts: iterate over the rules in order.  (The
try/except around each iteration is vacuous here: Alert.evaluate already
catches its own exceptions and no callback is modelled.) -/
def AlertManager.evaluate_alerts (evalFn : PyEval) (now : String) (ctx : Ctx)
    (m : AlertManager) : AlertManager :=
  let r := m.alerts.foldl (evalStep evalFn now ctx) ([], m.alert_history)
  { alerts := r.1, alert_history := r.2 }

/-! ## Analytics engine (src/analytics/engine.py)

A float domain with the IEEE special values that the rolling z-score can
produce.  Input prices are finite, so only `num`, `nan` and the infinities
from division by zero are needed. -/

inductive PFloat where
  | num (q : ℚ)
  | nan
  | inf
  | ninf
deriving DecidableEq

/-- IEEE subtraction on the modelled floats. -/
def PFloat.sub : PFloat → PFloat → PFloat
  | nan, _ => nan
  | _, nan => nan
  | num a, num b => num (a - b)
  | num _, inf => ninf
  | num _, ninf => inf
  | inf, num _ => inf
  | ninf, num _ => ninf
  | inf, inf => nan
  | inf, ninf => inf
  | ninf, inf => ninf
  | ninf, ninf => nan

/-- IEEE division on the modelled floats (zero denominators are the +0 of the
rolling standard deviation, hence 0/0 = nan and x/0 = ±inf). -/
def PFloat.div : PFloat → PFloat → PFloat
  | nan, _ => nan
  | _, nan => nan
  | num a, num b =>
      if b = 0 then (if a = 0 then nan else if 0 < a then inf else ninf)
      else num (a / b)
  | num _, inf => num 0
  | num _, ninf => num 0
  | inf, num b => if 0 ≤ b then inf else ninf
  | ninf, num b => if 0 ≤ b then ninf else inf
  | inf, inf => nan
  | inf, ninf => nan
  | ninf, inf => nan
  | ninf, ninf => nan

/-- pandas Series.rolling(window).mean() with the default min_periods=window:
nan until a full window is available, then the exact window mean. -/
def rollingMean (xs : List ℚ) (w : ℕ) : List PFloat :=
  (List.range xs.length).map (fun i =>
    if i + 1 < w then PFloat.nan
    else PFloat.num (((xs.drop (i + 1 - w)).take w).sum / (w : ℚ)))

/-- pandas Series.rolling(window).std() (sample std, ddof=1): nan until a
full window is available and for window 1; otherwise the square root of the
exact sample variance.  `sqrtFn` stands for the numpy square root, a library
primitive outside the repository. -/
def rollingStd (sqrtFn : ℚ → ℚ) (xs : List ℚ) (w : ℕ) : List PFloat :=
  (List.range xs.length).map (fun i =>
    if i + 1 < w then PFloat.nan
    else if w ≤ 1 then PFloat.nan
    else
      let win := (xs.drop (i + 1 - w)).take w
      let mu := win.sum / (w : ℚ)
      PFloat.num (sqrtFn ((win.map (fun x => (x - mu) ^ 2)).sum / ((w : ℚ) - 1))))

/-- AnalyticsEngine.compute_zscore: empty when the series is shorter than the
window, otherwise (series - rolling_mean) / rolling_std elementwise in float
arithmetic. -/
def AnalyticsEngine.compute_zscore (sqrtFn : ℚ → ℚ) (series : List ℚ) (window : ℕ) :
    List PFloat :=
  if series.length < window then []
  else
    let rm := rollingMean series window
    let rs := rollingStd sqrtFn series window
    (List.range series.length).map (fun i =>
      PFloat.div (PFloat.sub (PFloat.num (series.getD i 0)) (rm.getD i PFloat.nan))
        (rs.getD i PFloat.nan))

/-- A timestamp-indexed series, with strictly increasing, unique timestamps
as produced by the resampler. -/
abbrev TSeries := List (ℕ × ℚ)

/-- The inner join on timestamps performed by building a two-column DataFrame
and dropping rows with a missing side, listed in the first series' order
(identical to index order for the increasing indexes in use; the OLS sums
below are order-independent anyway). -/
def alignSeries (s1 s2 : TSeries) : List (ℚ × ℚ) :=
  s1.filterMap (fun p => (s2.lookup p.1).map (fun y => (p.2, y)))

structure HedgeResult where
  hedge_ratio : ℚ
  intercept : ℚ
  r_squared : ℚ
  method : String
deriving DecidableEq

/-- Sum of squared deviations of the hedge column from its mean over the
joined points (the design matrix [1, x] is full rank exactly when this is
nonzero). -/
def sxxOf (s1 s2 : TSeries) : ℚ :=
  let aligned := alignSeries s1 s2
  let x := aligned.map Prod.snd
  let xbar := x.sum / (aligned.length : ℚ)
  (x.map (fun v => (v - xbar) ^ 2)).sum

/-- AnalyticsEngine.compute_hedge_ratio: inner-join the two series; fewer
than 2 joined points yields the all-zero result; otherwise np.linalg.lstsq
on the design [1, x] (the unique least-squares line when x is
non-constant, the minimum-norm solution otherwise), residual and total sums
of squares, and r_squared = 1 - ss_res/ss_tot with the zero-variance guard. -/
def AnalyticsEngine.compute_hedge_ratio (s1 s2 : TSeries) : HedgeResult :=
  let aligned := alignSeries s1 s2
  if aligned.length < 2 then
    { hedge_ratio := 0, intercept := 0, r_squared := 0, method := "ols" }
  else
    let y := aligned.map Prod.fst
    let x := aligned.map Prod.snd
    let n : ℚ := (aligned.length : ℚ)
    let xbar := x.sum / n
    let ybar := y.sum / n
    let sxx := (x.map (fun v => (v - xbar) ^ 2)).sum
    let sxy := (aligned.map (fun p => (p.2 - xbar) * (p.1 - ybar))).sum
    let ab :=
      if sxx = 0 then (ybar / (1 + xbar ^ 2), ybar * xbar / (1 + xbar ^ 2))
      else (ybar - (sxy / sxx) * xbar, sxy / sxx)
    let ss_res := (aligned.map (fun p => (p.1 - (ab.1 + ab.2 * p.2)) ^ 2)).sum
    let ss_tot := (y.map (fun v => (v - ybar) ^ 2)).sum
    let r_squared := if ss_tot ≠ 0 then 1 - ss_res / ss_tot else 0
    { hedge_ratio := ab.2, intercept := ab.1, r_squared := r_squared, method := "ols" }

structure ADFResult where
  adf_statistic : ℚ
  pvalue : ℚ
  critical_values : List (String × ℚ)
  is_stationary : Bool
deriving DecidableEq

/-- The sentinel returned for short series and on numerical failure. -/
def adfSentinel : ADFResult :=
  { adf_statistic := 0, pvalue := 1, critical_values := [], is_stationary := false }

/-- AnalyticsEngine.compute_adf_test.  `adfuller` stands for the statsmodels
routine, a library primitive outside the repository: it returns the test
statistic, the p-value and the 1%/5%/10% critical values, or none when it
raises.  A series entry of none models a missing (NaN) observation; dropna
keeps the others. -/
def AnalyticsEngine.compute_adf_test
    (adfuller : List ℚ → Option (ℚ × ℚ × ℚ × ℚ × ℚ))
    (series : List (Option ℚ)) : ADFResult :=
  if series.length < 10 then adfSentinel
  else
    let clean := series.filterMap id
    if clean.length < 10 then adfSentinel
    else
      match adfuller clean with
      | none => adfSentinel
      | some (stat, p, c1, c5, c10) =>
          { adf_statistic := stat, pvalue := p
            critical_values := [("1%", c1), ("5%", c5), ("10%", c10)]
            is_stationary := decide (p < 1 / 20) }

/-! ## Resampler (src/backend/resampler.py)

Ticks are resampled with pandas: the DataFrame is indexed by timestamp and
sorted; `resample(timeframe)` (defaults label='left', closed='left',
origin='start_day') buckets rows into left-closed intervals of `T` seconds
anchored at midnight of the first day of the data; price is aggregated to
OHLC, size is summed (0 on an empty bucket) and rows are counted (0 on an
empty bucket); finally `bfill()` replaces the NaN OHLC entries of an empty
bucket with the corresponding column values of the next populated bucket.

Timestamps are seconds; timeframes are a whole number of seconds. -/

structure Tick where
  symbol : String
  ts : ℕ
  price : ℚ
  size : ℚ
deriving DecidableEq, Inhabited

/-- Index order used by df.sort_index(). -/
def tsLE (a b : Tick) : Prop := a.ts ≤ b.ts

instance : DecidableRel tsLE := fun a b => Nat.decLe a.ts b.ts

instance : IsTotal Tick tsLE := ⟨fun a b => Nat.le_total a.ts b.ts⟩

instance : IsTrans Tick tsLE := ⟨fun _ _ _ => Nat.le_trans⟩

/-- df.sort_index(): sort the ticks by timestamp.  (The pandas sort is not
stable by default; any order of equal timestamps is a faithful refinement,
and none of the verified properties depend on the tie order.) -/
def sortTicks (l : List Tick) : List Tick := List.insertionSort tsLE l

/-- Midnight of a timestamp's day: resample's origin='start_day' applied to
the first index entry. -/
def dayStart (ts : ℕ) : ℕ := ts / 86400 * 86400

/-- The left edge of the resample bucket a tick falls into, for buckets of
`T` seconds anchored at `anchor`. -/
def tickKey (anchor T : ℕ) (t : Tick) : ℕ := anchor + (t.ts - anchor) / T * T

/-- One output row of resample_to_ohlc.  `bucket` is the bucket's left edge
in seconds (the source serializes it as an ISO timestamp string). -/
structure Bar where
  symbol : String
  bucket : ℕ
  open_ : ℚ
  high : ℚ
  low : ℚ
  close : ℚ
  volume : ℚ
  trade_count : ℕ
deriving DecidableEq, Inhabited

/-- The OHLC/volume/count row of a populated bucket whose ticks, in index
order, are `t :: rest`. -/
def mkPopulated (symbol : String) (k : ℕ) (t : Tick) (rest : List Tick) : Bar :=
  { symbol := symbol
    bucket := k
    open_ := t.price
    high := (rest.map Tick.price).foldl max t.price
    low := (rest.map Tick.price).foldl min t.price
    close := (rest.getLastD t).price
    volume := ((t :: rest).map Tick.size).sum
    trade_count := (t :: rest).length }

/-- The output row for bucket `k` given the sorted ticks `s`: a populated
bucket aggregates its own ticks; an empty bucket has volume 0 and
trade_count 0 and takes each OHLC column from the next populated bucket
(bfill; the first tick after the bucket belongs to that bucket since the
keys are monotone in the timestamp).  pandas leaves an empty bucket's OHLC
NaN when no populated bucket follows; that cannot occur for the keys
resample_to_ohlc generates (the last key is populated) and such a row is
dropped here. -/
def mkBar (s : List Tick) (anchor T : ℕ) (symbol : String) (k : ℕ) : Option Bar :=
  match s.filter (fun t => decide (tickKey anchor T t = k)) with
  | t :: rest => some (mkPopulated symbol k t rest)
  | [] =>
    match s.filter (fun t => decide (k < tickKey anchor T t)) with
    | [] => none
    | t' :: _ =>
      match s.filter (fun t => decide (tickKey anchor T t = tickKey anchor T t')) with
      | [] => none
      | u :: rest =>
        let b := mkPopulated symbol (tickKey anchor T t') u rest
        some { symbol := symbol, bucket := k, open_ := b.open_, high := b.high
               low := b.low, close := b.close, volume := 0, trade_count := 0 }

/-- DataResampler.resample_to_ohlc on the sorted, nonempty tick list
`t0 :: rest`: one row per bucket from the first tick's bucket to the last
tick's bucket. -/
def resampleSorted (t0 : Tick) (rest : List Tick) (T : ℕ) : List Bar :=
  let s := t0 :: rest
  let anchor := dayStart t0.ts
  let firstKey := tickKey anchor T t0
  let lastKey := tickKey anchor T (rest.getLastD t0)
  let n := (lastKey - firstKey) / T + 1
  ((List.range n).map (fun i => firstKey + i * T)).filterMap (mkBar s anchor T t0.symbol)

/-- DataResampler.resample_to_ohlc: empty input gives an empty output;
otherwise sort by timestamp, take the symbol of the first row, resample.
`T` is the timeframe in seconds. -/
def DataResampler.resample_to_ohlc (ticks : List Tick) (T : ℕ) : List Bar :=
  match sortTicks ticks with
  | [] => []
  | t0 :: rest => resampleSorted t0 rest T

/-- DataResampler.get_timeframe_seconds. -/
def DataResampler.get_timeframe_seconds (timeframe : String) : ℕ :=
  if timeframe = "1s" then 1
  else if timeframe = "1min" then 60
  else if timeframe = "5min" then 300
  else if timeframe = "15min" then 900
  else if timeframe = "1h" then 3600
  else if timeframe = "1d" then 86400
  else 60

/-! ## Concrete inputs used by the closed theorems below -/

/-- Two ticks of one symbol at t=0 and t=180 s: the spec's gap-fill example. -/
def ticksC1 : List Tick :=
  [ { symbol := "btcusdt", ts := 0, price := 100, size := 1 },
    { symbol := "btcusdt", ts := 180, price := 200, size := 1 } ]

/-- A single tick on 1970-01-02 at 00:08:20 (86900 s since the epoch). -/
def tickC8 : List Tick := [ { symbol := "btcusdt", ts := 86900, price := 7, size := 2 } ]

/-- Three ticks spanning three buckets of 60 s, two of them populated. -/
def ticksW8 : List Tick :=
  [ { symbol := "ethusdt", ts := 0, price := 10, size := 1 / 2 },
    { symbol := "ethusdt", ts := 75, price := 11, size := 3 / 2 },
    { symbol := "ethusdt", ts := 130, price := 12, size := 1 } ]

/-- Stand-in for the numpy square root: on the inputs of the theorems below
it is only ever evaluated at 0, where the IEEE square root is exactly 0. -/
def sqrtStub : ℚ → ℚ := fun _ => 0

/-- A constant dependent series and a non-constant hedge series on matching
timestamps. -/
def hrS1 : TSeries := [(0, 5), (1, 5), (2, 5)]

def hrS2 : TSeries := [(0, 1), (1, 2), (2, 3)]

def hrW1 : TSeries := [(0, 5), (1, 5)]

def hrW2 : TSeries := [(0, 1), (1, 9)]

/-- Stand-in for statsmodels adfuller, returning an arbitrary fixed result:
the sentinel theorems hold for every such routine. -/
def adfStub : List ℚ → Option (ℚ × ℚ × ℚ × ℚ × ℚ) := fun _ => some (3, 0, -1, -2, -3)

/-- Twelve observations of which only nine are non-missing. -/
def adfSeries9 : List (Option ℚ) :=
  List.replicate 9 (some (3 : ℚ)) ++ List.replicate 3 none

/-- A collector that is already active. -/
def runningCollector : BinanceCollector :=
  { symbols := ["btcusdt"], running := true
    ws_connections := [connUrl "btcusdt"], message_buffer := [] }

/-- A well-formed Binance trade message. -/
def msgTrade : RawMsg :=
  { e := some "trade", s := some "BTCUSDT", t := some 12345
    p := some "40000.00", q := some "0.1"
    tradeTime := some 123456789, eventTime := some 123456789, m := some true }

/-- A trade message whose price field is not numeric. -/
def msgBadPrice : RawMsg :=
  { e := some "trade", s := some "BTCUSDT", t := some 12345
    p := some "abc", q := some "0.1"
    tradeTime := some 123456789, eventTime := some 123456789, m := some true }

/-- A one-tick buffer, to watch a malformed message leave it unchanged. -/
def bufOne : List NTick :=
  [ { symbol := "btcusdt", timestamp := 1, price := 2, size := 3
      event_time := none, trade_id := none, is_buyer_maker := false } ]

/-- An evaluator for the single condition string used in the spec's alert
example; every other condition raises. -/
def evalGt2 : PyEval := fun cond ctx =>
  if cond = "x > 2" then some (decide ((2 : ℚ) < (ctx.lookup "x").getD 0)) else none

/-- A manager holding one armed alert on the spec's example condition. -/
def mgrC2 : AlertManager := { alerts := [Alert.new "x > 2"], alert_history := [] }

/-- The same manager after its alert has fired once. -/
def mgrTrig : AlertManager :=
  { alerts := [(Alert.new "x > 2").trigger "t1"]
    alert_history := [mkEvent ((Alert.new "x > 2").trigger "t1") [("x", 3)]] }

/-- A manager with two alerts on one condition and a third on another. -/
def mgrC10 : AlertManager :=
  { alerts := [Alert.new "x > 2", (Alert.new "x > 2").trigger "t0", Alert.new "y < 1"]
    alert_history := [mkEvent ((Alert.new "x > 2").trigger "t0") []] }

/-! ## Theorems -/

/-- C1: on the spec's own example (ticks at t=0 with price 100 and t=180 with
price 200, timeframe 60 s) the code does NOT carry the previous bucket's
close forward into the empty buckets: `bfill()` copies the NEXT populated
bucket's values backwards, so the filled buckets at t=60 and t=120 read 200,
not the 100 the claim requires.  The code's own comment ("fill missing values
with last known price") describes a forward fill, so this is a slip in the
code. -/
theorem gap_fill_backfills_from_next_bucket :
    DataResampler.resample_to_ohlc ticksC1 60
      = [ { symbol := "btcusdt", bucket := 0, open_ := 100, high := 100
            low := 100, close := 100, volume := 1, trade_count := 1 },
          { symbol := "btcusdt", bucket := 60, open_ := 200, high := 200
            low := 200, close := 200, volume := 0, trade_count := 0 },
          { symbol := "btcusdt", bucket := 120, open_ := 200, high := 200
            low := 200, close := 200, volume := 0, trade_count := 0 },
          { symbol := "btcusdt", bucket := 180, open_ := 200, high := 200
            low := 200, close := 200, volume := 1, trade_count := 1 } ] := by
  with_unfolding_all decide

/-- C5: drain(clear=true) returns exactly the buffered ticks and empties the
buffer in the same atomic step (the whole body runs under the buffer lock):
an immediate pending_count is 0, and a later drain returns exactly the ticks
delivered after the first drain, so no tick drained earlier reappears. -/
theorem drain_clear_atomic (c : BinanceCollector) (ext : List NTick) :
    (BinanceCollector.get_buffered_messages true c).1 = c.message_buffer
    ∧ BinanceCollector.get_message_count (BinanceCollector.get_buffered_messages true c).2 = 0
    ∧ (BinanceCollector.get_buffered_messages true
        (ext.foldl BinanceCollector.bufferTick
          (BinanceCollector.get_buffered_messages true c).2)).1 = ext := by
  have hfold : ∀ (l : List NTick) (d : BinanceCollector),
      (l.foldl BinanceCollector.bufferTick d).message_buffer = d.message_buffer ++ l := by
    intro l
    induction l with
    | nil => intro d; simp
    | cons n l ih =>
        intro d
        simp [List.foldl_cons, ih, BinanceCollector.bufferTick]
  refine ⟨rfl, rfl, ?_⟩
  simp [BinanceCollector.get_buffered_messages, hfold]

/-- C7 counterexample: calling start on an active collector does not report
any typed error to the caller.  The Python method returns None on this path
(it only logs a warning), so the caller-visible error component is `none`,
while the claim, following the spec's Result type, requires the value
`AlreadyRunning` that `startSpec` produces. -/
theorem start_while_running_reports_no_error :
    runningCollector.running = true
    ∧ (runningCollector.start).2.1 = none
    ∧ startSpec runningCollector = Except.error CollectorError.AlreadyRunning :=
  ⟨rfl, rfl, rfl⟩

/-- C7 (amended): calling start while the collector is active returns early
with only a warning log: the state (running flag, connections, buffer) is
unchanged and no typed error value is returned to the caller. -/
theorem start_when_running_is_noop (c : BinanceCollector) (h : c.running = true) :
    c.start = (c, none, ["Collector already running"]) := by
  unfold BinanceCollector.start
  rw [h]
  simp

/-- C7 witness: the amended theorem applied to a concrete active collector. -/
theorem start_when_running_witness :
    runningCollector.start = (runningCollector, none, ["Collector already running"]) :=
  start_when_running_is_noop runningCollector rfl

/-- C9: whenever the series has fewer than 10 non-missing observations the
ADF test returns the sentinel {statistic 0, p-value 1, no critical values,
is_stationary false}, whatever the adfuller routine would say; the function
is total, so no exception escapes. -/
theorem adf_short_series_sentinel
    (adfuller : List ℚ → Option (ℚ × ℚ × ℚ × ℚ × ℚ)) (series : List (Option ℚ))
    (h : (series.filterMap id).length < 10) :
    AnalyticsEngine.compute_adf_test adfuller series = adfSentinel := by
  unfold AnalyticsEngine.compute_adf_test
  by_cases h1 : series.length < 10
  · simp [h1]
  · simp [h1, h]

/-- C9 witness: a 12-entry series with only nine non-missing observations
returns the sentinel although the stubbed adfuller reports a p-value of 0. -/
theorem adf_short_series_witness :
    AnalyticsEngine.compute_adf_test adfStub adfSeries9 = adfSentinel :=
  adf_short_series_sentinel adfStub adfSeries9 (by decide)

/-- C10: remove_alert(c) drops every alert whose condition equals c, keeps
the remaining alerts as a sublist (same records — triggered state and
trigger_count included — in the same relative order), and leaves the alert
history untouched. -/
theorem remove_alert_spec (m : AlertManager) (c : String) :
    (∀ a ∈ (m.remove_alert c).alerts, a.condition ≠ c)
    ∧ ((m.remove_alert c).alerts).Sublist m.alerts
    ∧ (∀ a ∈ m.alerts, a.condition ≠ c → a ∈ (m.remove_alert c).alerts)
    ∧ (m.remove_alert c).alert_history = m.alert_history := by
  refine ⟨?_, List.filter_sublist _, ?_, rfl⟩
  · intro a ha
    have := (List.mem_filter.mp ha).2
    simpa using this
  · intro a ha hne
    exact List.mem_filter.mpr ⟨ha, by simpa using hne⟩

/-- C10 witness: removing "x > 2" from a manager with two alerts on that
condition (one of them triggered) keeps exactly the third alert, with the
history intact. -/
theorem remove_alert_witness :
    (∀ a ∈ (mgrC10.remove_alert "x > 2").alerts, a.condition ≠ "x > 2")
    ∧ Alert.new "y < 1" ∈ (mgrC10.remove_alert "x > 2").alerts
    ∧ (mgrC10.remove_alert "x > 2").alert_history = mgrC10.alert_history :=
  ⟨(remove_alert_spec mgrC10 "x > 2").1,
   (remove_alert_spec mgrC10 "x > 2").2.2.1 (Alert.new "y < 1") (by decide) (by decide),
   (remove_alert_spec mgrC10 "x > 2").2.2.2⟩

/-- C8 counterexample: for the timeframe of 420 s (pandas '7min'), which does
not divide one day, the bucket of a tick at 86900 s is anchored at midnight
of the data's first day (origin='start_day'), giving bucket_start 86820, not
the epoch-floor 86900/420*420 = 86520 the claim requires for ALL
timeframes. -/
theorem resample_bucket_not_epoch_aligned :
    (DataResampler.resample_to_ohlc tickC8 420).map Bar.bucket = [86820]
    ∧ 86900 / 420 * 420 = 86520
    ∧ (86820 : ℕ) ≠ 86520 := by
  with_unfolding_all decide

/-- C3 counterexample: the rolling z-score of the constant series [5,5,5]
with window 3 is not empty and holds NaN at every index — the zero rolling
standard deviation is not handled explicitly; the 0/0 division propagates
the float NaN, which the claim says never appears in the returned series. -/
theorem zscore_constant_series_nan :
    AnalyticsEngine.compute_zscore sqrtStub [5, 5, 5] 3
        = [PFloat.nan, PFloat.nan, PFloat.nan]
    ∧ PFloat.nan ∈ AnalyticsEngine.compute_zscore sqrtStub [5, 5, 5] 3 := by
  with_unfolding_all decide

/-- C4 counterexample: for the constant dependent series A = [5,5,5] joined
with the hedge series [1,2,3] (three joined points, zero total variance in
A), the result is {hedge_ratio 0, intercept 5, r_squared 0}: the intercept is
the mean of A, not the 0 of the all-zero sentinel the claim requires. -/
theorem hedge_ratio_zero_variance_nonzero_intercept :
    AnalyticsEngine.compute_hedge_ratio hrS1 hrS2
        = { hedge_ratio := 0, intercept := 5, r_squared := 0, method := "ols" }
    ∧ (AnalyticsEngine.compute_hedge_ratio hrS1 hrS2).intercept ≠ 0 := by
  with_unfolding_all decide

/-- C6: a raw feed message yields a Tick exactly when it is a trade event
("e" = "trade") and its price and size fields convert to numbers the way
Python float(data.get(key, 0)) does (an absent field defaults to 0, a
present field must parse as a decimal); the produced tick is appended to the
buffer, and otherwise the message is dropped with the buffer unchanged. -/
theorem on_message_tick_iff (nowMs : ℕ) (buf : List NTick) (data : RawMsg) :
    ((on_message nowMs buf data).2.isSome = true ↔
      data.e = some "trade" ∧ (pyFloatField data.p).isSome = true
        ∧ (pyFloatField data.q).isSome = true)
    ∧ (∀ n, (on_message nowMs buf data).2 = some n →
        (on_message nowMs buf data).1 = buf ++ [n])
    ∧ ((on_message nowMs buf data).2 = none → (on_message nowMs buf data).1 = buf) := by
  by_cases he : data.e = some "trade"
  · cases hp : pyFloatField data.p with
    | none => simp [on_message, normalize_tick, he, hp]
    | some price =>
      cases hq : pyFloatField data.q with
      | none => simp [on_message, normalize_tick, he, hp, hq]
      | some size => simp [on_message, normalize_tick, he, hp, hq]
  · simp [on_message, he]

/-- C6 witness: a well-formed trade message produces a tick, and a trade
message with non-numeric price is dropped, leaving a one-tick buffer
unchanged. -/
theorem on_message_trade_witness :
    ((on_message 0 [] msgTrade).2).isSome = true
    ∧ (on_message 0 bufOne msgBadPrice).1 = bufOne :=
  ⟨(on_message_tick_iff 0 [] msgTrade).1.mpr ⟨rfl, by decide, by decide⟩,
   (on_message_tick_iff 0 bufOne msgBadPrice).2.2 (by with_unfolding_all decide)⟩

/-- Decomposition of the evaluate_alerts fold: the rules are updated
pointwise and one history entry is pushed per firing rule, in rule order. -/
theorem evalStep_foldl (evalFn : PyEval) (now : String) (ctx : Ctx) :
    ∀ (l : List Alert) (acc : List Alert) (h : List AlertEvent),
      l.foldl (evalStep evalFn now ctx) (acc, h) =
        (acc ++ l.map (fun a => if firesNow evalFn ctx a then a.trigger now else a),
         ((l.filter (firesNow evalFn ctx)).map
            (fun a => mkEvent (a.trigger now) ctx)).foldl recordPush h) := by
  intro l
  induction l with
  | nil => intro acc h; simp
  | cons a l ih =>
      intro acc h
      by_cases hf : firesNow evalFn ctx a = true
      · simp [List.foldl_cons, evalStep, hf, ih, List.filter_cons, List.append_assoc]
      · simp [List.foldl_cons, evalStep, hf, ih, List.filter_cons, List.append_assoc]

/-- C2: one evaluate_alerts call maps each rule to its triggered version
(triggered := true, triggered_at stamped with the call time, trigger_count
incremented by exactly 1) exactly when the rule is armed and its condition
evaluates true, leaving every other rule untouched; the history receives
exactly one AlertEvent per newly fired rule, in rule order, through the
bounded push (append, then drop-oldest beyond 1000).  In particular a rule
that is already Triggered contributes no event and keeps its trigger_count,
and when every rule is already Triggered the call changes nothing at all —
re-evaluating true conditions has no further side effect until an external
reset clears the triggered flag. -/
theorem evaluate_alerts_edge_trigger (evalFn : PyEval) (now : String) (ctx : Ctx)
    (m : AlertManager) :
    (m.evaluate_alerts evalFn now ctx).alerts
        = m.alerts.map (fun a => if firesNow evalFn ctx a then a.trigger now else a)
    ∧ (m.evaluate_alerts evalFn now ctx).alert_history
        = ((m.alerts.filter (firesNow evalFn ctx)).map
            (fun a => mkEvent (a.trigger now) ctx)).foldl recordPush m.alert_history
    ∧ ((∀ a ∈ m.alerts, a.triggered = true) → m.evaluate_alerts evalFn now ctx = m) := by
  have key : m.evaluate_alerts evalFn now ctx =
      { alerts := m.alerts.map (fun a => if firesNow evalFn ctx a then a.trigger now else a)
        alert_history := ((m.alerts.filter (firesNow evalFn ctx)).map
            (fun a => mkEvent (a.trigger now) ctx)).foldl recordPush m.alert_history } := by
    unfold AlertManager.evaluate_alerts
    rw [evalStep_foldl evalFn now ctx m.alerts [] m.alert_history]
    simp
  refine ⟨by rw [key], by rw [key], ?_⟩
  intro hall
  have hfire : ∀ a ∈ m.alerts, ¬ firesNow evalFn ctx a = true := by
    intro a ha
    unfold firesNow
    rw [hall a ha]
    simp
  rw [key]
  have h1 : m.alerts.map (fun a => if firesNow evalFn ctx a then a.trigger now else a)
      = m.alerts := by
    rw [List.map_congr_left (g := id) (fun a ha => by simp [hfire a ha])]
    exact List.map_id m.alerts
  have h2 : m.alerts.filter (firesNow evalFn ctx) = [] :=
    List.filter_eq_nil_iff.mpr hfire
  rw [h1, h2]
  cases m
  rfl

/-- C2 witness: the spec's example.  An armed rule on "x > 2" evaluated with
x = 3 triggers once (stamped, count 1) and appends exactly one event; the
already-triggered manager re-evaluated with x = 5 is completely unchanged. -/
theorem evaluate_alerts_witness :
    (mgrC2.evaluate_alerts evalGt2 "t1" [("x", 3)]).alerts
        = [{ condition := "x > 2", triggered := true
             triggered_at := some "t1", trigger_count := 1 }]
    ∧ (mgrC2.evaluate_alerts evalGt2 "t1" [("x", 3)]).alert_history.length = 1
    ∧ mgrTrig.evaluate_alerts evalGt2 "t2" [("x", 5)] = mgrTrig := by
  have h1 := evaluate_alerts_edge_trigger evalGt2 "t1" [("x", 3)] mgrC2
  have h2 := evaluate_alerts_edge_trigger evalGt2 "t2" [("x", 5)] mgrTrig
  refine ⟨?_, ?_, h2.2.2 (by with_unfolding_all decide)⟩
  · rw [h1.1]
    with_unfolding_all decide
  · rw [h1.2.1]
    with_unfolding_all decide

/-- Entry access for the rolling series, which are maps over an index
range. -/
theorem getD_map_range {α : Type} (g : ℕ → α) (n i : ℕ) (h : i < n) (d : α) :
    ((List.range n).map g).getD i d = g i := by
  rw [List.getD_eq_getElem?_getD, List.getElem?_map, List.getElem?_range h]
  rfl

/-- Rolling mean of a constant series: nan before a full window, the
constant afterwards. -/
theorem rollingMean_replicate (c : ℚ) (w n i : ℕ) (hw : 0 < w) (hi : i < n) :
    (rollingMean (List.replicate n c) w).getD i PFloat.nan
      = if i + 1 < w then PFloat.nan else PFloat.num c := by
  unfold rollingMean
  rw [List.length_replicate, getD_map_range _ _ _ hi]
  by_cases hb : i + 1 < w
  · simp [hb]
  · rw [if_neg hb, if_neg hb, List.drop_replicate, List.take_replicate]
    have hmin : min w (n - (i + 1 - w)) = w := by omega
    have hw' : (w : ℚ) ≠ 0 := Nat.cast_ne_zero.mpr (by omega)
    rw [hmin, List.sum_replicate, nsmul_eq_mul]
    congr 1
    field_simp

/-- Rolling sample standard deviation of a constant series, window at least
2: nan before a full window, exactly 0 afterwards (the variance is the exact
rational 0 and the square root of 0 is 0). -/
theorem rollingStd_replicate (sqrtFn : ℚ → ℚ) (c : ℚ) (w n i : ℕ)
    (hs : sqrtFn 0 = 0) (hw2 : 2 ≤ w) (hi : i < n) :
    (rollingStd sqrtFn (List.replicate n c) w).getD i PFloat.nan
      = if i + 1 < w then PFloat.nan else PFloat.num 0 := by
  unfold rollingStd
  rw [List.length_replicate, getD_map_range _ _ _ hi]
  by_cases hb : i + 1 < w
  · simp [hb]
  · rw [if_neg hb, if_neg hb, if_neg (by omega : ¬ w ≤ 1)]
    dsimp only
    rw [List.drop_replicate, List.take_replicate]
    have hmin : min w (n - (i + 1 - w)) = w := by omega
    have hw' : (w : ℚ) ≠ 0 := Nat.cast_ne_zero.mpr (by omega)
    rw [hmin, List.sum_replicate, nsmul_eq_mul,
      show (w : ℚ) * c / (w : ℚ) = c from by field_simp]
    rw [List.map_replicate]
    simp [List.sum_replicate, hs]

/-- Rolling sample standard deviation with window 1 is nan at every index
(a single observation has no sample variance, ddof = 1). -/
theorem rollingStd_one (sqrtFn : ℚ → ℚ) (xs : List ℚ) (i : ℕ) (hi : i < xs.length) :
    (rollingStd sqrtFn xs 1).getD i PFloat.nan = PFloat.nan := by
  unfold rollingStd
  rw [getD_map_range _ _ _ hi, if_neg (by omega), if_pos (by omega)]

/-- C3 (amended): the rolling z-score of a constant series of length at
least the window is a series of the same length whose every entry is the
float NaN (pandas' missing marker): the first window-1 entries for lack of a
full window, the rest through the 0/0 division that the code leaves to float
arithmetic.  No finite value and no infinity appears, but the series is
neither empty nor NaN-free, and the zero standard deviation receives no
explicit sentinel handling. -/
theorem zscore_constant_series_all_nan (sqrtFn : ℚ → ℚ) (c : ℚ) (w n : ℕ)
    (hs : sqrtFn 0 = 0) (hw : 0 < w) (hwn : w ≤ n) :
    AnalyticsEngine.compute_zscore sqrtFn (List.replicate n c) w
      = List.replicate n PFloat.nan := by
  unfold AnalyticsEngine.compute_zscore
  rw [List.length_replicate, if_neg (by omega)]
  dsimp only
  refine List.eq_replicate_iff.mpr ⟨by simp, ?_⟩
  intro b hb
  obtain ⟨i, hir, rfl⟩ := List.mem_map.mp hb
  have hi : i < n := List.mem_range.mp hir
  have hgd : (List.replicate n c).getD i 0 = c := by
    rw [List.getD_eq_getElem?_getD, List.getElem?_replicate, if_pos hi]
    rfl
  by_cases hw1 : w = 1
  · subst hw1
    rw [rollingStd_one sqrtFn _ i (by simpa using hi),
      rollingMean_replicate c 1 n i Nat.one_pos hi, if_neg (by omega), hgd]
    rfl
  · have hw2 : 2 ≤ w := by omega
    rw [rollingMean_replicate c w n i hw hi,
      rollingStd_replicate sqrtFn c w n i hs hw2 hi]
    by_cases hb2 : i + 1 < w
    · rw [if_pos hb2, if_pos hb2]
      rfl
    · rw [if_neg hb2, if_neg hb2, hgd]
      show PFloat.div (PFloat.num (c - c)) (PFloat.num 0) = PFloat.nan
      simp [PFloat.div]

/-- C3 witness: the amended theorem applied to the constant series of four
sevens with window 2. -/
theorem zscore_constant_series_witness :
    AnalyticsEngine.compute_zscore sqrtStub (List.replicate 4 (7 : ℚ)) 2
      = List.replicate 4 PFloat.nan :=
  zscore_constant_series_all_nan sqrtStub 7 2 4 rfl (by decide) (by decide)

/-- C4 (amended): with fewer than 2 joined points the hedge-ratio
computation returns the all-zero sentinel and raises nothing (the embedding
is total).  With at least 2 joined points, zero total variance in the
dependent series A and a non-constant hedge series (nonzero sum of squared
deviations, i.e. a full-rank design), the result is hedge_ratio 0 and
r_squared 0 — but the intercept is the mean of A, not 0. -/
theorem hedge_ratio_degenerate (s1 s2 : TSeries) (c : ℚ) :
    ((alignSeries s1 s2).length < 2 →
      AnalyticsEngine.compute_hedge_ratio s1 s2
        = { hedge_ratio := 0, intercept := 0, r_squared := 0, method := "ols" })
    ∧ (2 ≤ (alignSeries s1 s2).length →
        (∀ p ∈ alignSeries s1 s2, p.1 = c) →
        sxxOf s1 s2 ≠ 0 →
        AnalyticsEngine.compute_hedge_ratio s1 s2
          = { hedge_ratio := 0, intercept := c, r_squared := 0, method := "ols" }) := by
  constructor
  · intro h
    unfold AnalyticsEngine.compute_hedge_ratio
    rw [if_pos h]
  · intro h2 hconst hsxx
    unfold AnalyticsEngine.compute_hedge_ratio
    rw [if_neg (by omega : ¬ (alignSeries s1 s2).length < 2)]
    unfold sxxOf at hsxx
    dsimp only at hsxx ⊢
    set aligned := alignSeries s1 s2 with haeq
    have hlen : ((aligned.length : ℚ)) ≠ 0 := Nat.cast_ne_zero.mpr (by omega)
    have hybar : (List.map Prod.fst aligned).sum / ((aligned.length : ℚ)) = c := by
      have hall : ∀ v ∈ List.map Prod.fst aligned, v = c := by
        intro v hv
        obtain ⟨p, hp, rfl⟩ := List.mem_map.mp hv
        exact hconst p hp
      rw [List.sum_eq_card_nsmul _ c hall, List.length_map, nsmul_eq_mul]
      field_simp
    simp only [hybar]
    generalize hxb : (List.map Prod.snd aligned).sum / ((aligned.length : ℚ)) = xb
    rw [hxb] at hsxx
    have hsxy : (List.map (fun p => (p.2 - xb) * (p.1 - c)) aligned).sum = 0 := by
      apply List.sum_eq_zero
      intro x hx
      obtain ⟨p, hp, rfl⟩ := List.mem_map.mp hx
      rw [hconst p hp, sub_self, mul_zero]
    have hstot : (List.map (fun v => (v - c) ^ 2) (List.map Prod.fst aligned)).sum = 0 := by
      apply List.sum_eq_zero
      intro x hx
      obtain ⟨v, hv, rfl⟩ := List.mem_map.mp hx
      obtain ⟨p, hp, rfl⟩ := List.mem_map.mp hv
      rw [hconst p hp, sub_self]
      ring
    rw [if_neg hsxx, hsxy, hstot, zero_div]
    simp

/-- C4 witness: the two degenerate branches at concrete inputs — a constant
dependent series on a non-constant hedge series yields hedge_ratio 0,
r_squared 0 and intercept 5 (the mean of A), and an empty join yields the
all-zero sentinel. -/
theorem hedge_ratio_degenerate_witness :
    AnalyticsEngine.compute_hedge_ratio hrW1 hrW2
        = { hedge_ratio := 0, intercept := 5, r_squared := 0, method := "ols" }
    ∧ AnalyticsEngine.compute_hedge_ratio [(0, 1)] []
        = { hedge_ratio := 0, intercept := 0, r_squared := 0, method := "ols" } :=
  ⟨(hedge_ratio_degenerate hrW1 hrW2 5).2 (by with_unfolding_all decide)
      (by with_unfolding_all decide) (by with_unfolding_all decide),
   (hedge_ratio_degenerate [(0, 1)] [] 0).1 (by with_unfolding_all decide)⟩

/-- Bucket keys agree with the epoch floor whenever the timeframe divides
the anchor (midnight of the first day) and the tick is not before the
anchor. -/
theorem tickKey_eq_floor {T anchor : ℕ} (hT : 0 < T) (hdvd : T ∣ anchor) (t : Tick)
    (h : anchor ≤ t.ts) : tickKey anchor T t = t.ts / T * T := by
  obtain ⟨m, rfl⟩ := hdvd
  unfold tickKey
  have h1 : t.ts = (t.ts - T * m) + T * m := by omega
  conv_rhs => rw [h1]
  rw [Nat.add_mul_div_left _ _ hT]
  ring

/-- In a sorted tick list the last element has the largest timestamp. -/
theorem sorted_le_getLastD : ∀ (rest : List Tick) (t0 : Tick),
    List.Sorted tsLE (t0 :: rest) → ∀ u ∈ t0 :: rest, u.ts ≤ (rest.getLastD t0).ts := by
  intro rest
  induction rest with
  | nil =>
      intro t0 _ u hu
      rcases List.mem_cons.mp hu with rfl | hu
      · exact le_refl _
      · exact absurd hu (List.not_mem_nil u)
  | cons a l ih =>
      intro t0 hs u hu
      rw [List.getLastD_cons]
      have hs' : List.Sorted tsLE (a :: l) := (List.sorted_cons.mp hs).2
      rcases List.mem_cons.mp hu with rfl | hu'
      · have h0a : tsLE u a := (List.sorted_cons.mp hs).1 a (by simp)
        exact le_trans h0a (ih a hs' a (by simp))
      · exact ih a hs' u hu'

/-- The bucket key of a tick lying between the first and the last tick
appears in the key range the resampler generates. -/
theorem key_mem_keys (anchor T : ℕ) (hT : 0 < T) (t0 t tl : Tick)
    (h01 : t0.ts ≤ t.ts) (h12 : t.ts ≤ tl.ts) :
    tickKey anchor T t ∈
      (List.range ((tickKey anchor T tl - tickKey anchor T t0) / T + 1)).map
        (fun i => tickKey anchor T t0 + i * T) := by
  unfold tickKey
  have h01' : (t0.ts - anchor) / T ≤ (t.ts - anchor) / T :=
    Nat.div_le_div_right (Nat.sub_le_sub_right h01 anchor)
  have h12' : (t.ts - anchor) / T ≤ (tl.ts - anchor) / T :=
    Nat.div_le_div_right (Nat.sub_le_sub_right h12 anchor)
  set j0 := (t0.ts - anchor) / T with hj0
  set j1 := (t.ts - anchor) / T with hj1
  set j2 := (tl.ts - anchor) / T with hj2
  have hsub : anchor + j2 * T - (anchor + j0 * T) = (j2 - j0) * T := by
    rw [Nat.sub_mul]
    omega
  rw [hsub, Nat.mul_div_cancel _ hT]
  refine List.mem_map.mpr ⟨j1 - j0, List.mem_range.mpr (by omega), ?_⟩
  rw [Nat.sub_mul]
  have hm : j0 * T ≤ j1 * T := Nat.mul_le_mul_right T h01'
  omega

/-- C8 (amended): for the repository's supported timeframes — those whose
length in seconds divides one day (1s, 1min, 5min, 15min, 1h, 1d), so that
the start_day anchor is aligned with the epoch — every tick of the input,
sorted or not, lands in an output bar whose bucket_start is floor(ts/T)*T,
and that (populated) bar's volume is the exact sum of the sizes of the input
ticks assigned to the bucket, with trade_count their number.  For timeframes
not dividing a day the buckets are anchored at midnight of the first day of
the data instead of the epoch (see the counterexample with T = 420). -/
theorem resample_floor_buckets_and_volume (ticks : List Tick) (T : ℕ)
    (hT : 0 < T) (hdvd : T ∣ 86400) :
    ∀ t ∈ ticks, ∃ bar ∈ DataResampler.resample_to_ohlc ticks T,
      bar.bucket = t.ts / T * T
      ∧ bar.volume
          = ((ticks.filter (fun u => decide (u.ts / T * T = t.ts / T * T))).map Tick.size).sum
      ∧ bar.trade_count
          = (ticks.filter (fun u => decide (u.ts / T * T = t.ts / T * T))).length := by
  intro t ht
  have hperm : List.Perm (sortTicks ticks) ticks := List.perm_insertionSort tsLE ticks
  have hsorted : List.Sorted tsLE (sortTicks ticks) := List.sorted_insertionSort tsLE ticks
  cases hS : sortTicks ticks with
  | nil =>
      rw [hS] at hperm
      rw [hperm.symm.eq_nil] at ht
      exact absurd ht (List.not_mem_nil t)
  | cons t0 rest =>
      rw [hS] at hperm hsorted
      have ht' : t ∈ t0 :: rest := hperm.mem_iff.mpr ht
      unfold DataResampler.resample_to_ohlc
      rw [hS]
      unfold resampleSorted
      dsimp only
      have hanch_dvd : T ∣ dayStart t0.ts := hdvd.mul_left _
      have hanch_le : dayStart t0.ts ≤ t0.ts := Nat.div_mul_le_self _ _
      have hhead : ∀ u ∈ t0 :: rest, t0.ts ≤ u.ts := by
        intro u hu
        rcases List.mem_cons.mp hu with rfl | hu
        · exact le_refl _
        · exact (List.sorted_cons.mp hsorted).1 u hu
      have hlast : ∀ u ∈ t0 :: rest, u.ts ≤ (rest.getLastD t0).ts :=
        sorted_le_getLastD rest t0 hsorted
      have hkey : ∀ u ∈ t0 :: rest, tickKey (dayStart t0.ts) T u = u.ts / T * T := by
        intro u hu
        exact tickKey_eq_floor hT hanch_dvd u (le_trans hanch_le (hhead u hu))
      have hmem := key_mem_keys (dayStart t0.ts) T hT t0 t (rest.getLastD t0)
          (hhead t ht') (hlast t ht')
      have hfeq : (t0 :: rest).filter
            (fun u => decide (tickKey (dayStart t0.ts) T u = tickKey (dayStart t0.ts) T t))
          = (t0 :: rest).filter (fun u => decide (u.ts / T * T = t.ts / T * T)) := by
        apply List.filter_congr
        intro u hu
        simp only [hkey u hu, hkey t ht']
      have hpermf : List.Perm
          ((t0 :: rest).filter (fun u => decide (u.ts / T * T = t.ts / T * T)))
          (ticks.filter (fun u => decide (u.ts / T * T = t.ts / T * T))) :=
        hperm.filter _
      cases hf : (t0 :: rest).filter
          (fun u => decide (tickKey (dayStart t0.ts) T u = tickKey (dayStart t0.ts) T t)) with
      | nil =>
          exfalso
          have hmemf : t ∈ (t0 :: rest).filter
              (fun u => decide (tickKey (dayStart t0.ts) T u = tickKey (dayStart t0.ts) T t)) :=
            List.mem_filter.mpr ⟨ht', by simp⟩
          rw [hf] at hmemf
          exact absurd hmemf (List.not_mem_nil t)
      | cons u us =>
          refine ⟨mkPopulated t0.symbol (tickKey (dayStart t0.ts) T t) u us, ?_, ?_, ?_, ?_⟩
          · apply List.mem_filterMap.mpr
            refine ⟨tickKey (dayStart t0.ts) T t, hmem, ?_⟩
            unfold mkBar
            rw [hf]
          · exact hkey t ht'
          · show ((u :: us).map Tick.size).sum = _
            rw [← hf, hfeq]
            exact ((hpermf.map Tick.size).sum_eq)
          · show (u :: us).length = _
            rw [← hf, hfeq]
            exact hpermf.length_eq

/-- C8 witness: the amended theorem applied to three unsorted-friendly ticks
and the supported 60 s timeframe, at the tick with timestamp 75: its bar has
bucket_start 75/60*60 = 60 and volume 3/2, the size of the single tick in
that bucket. -/
theorem resample_floor_witness :
    ∃ bar ∈ DataResampler.resample_to_ohlc ticksW8 60,
      bar.bucket = 75 / 60 * 60
      ∧ bar.volume = ((ticksW8.filter
            (fun u => decide (u.ts / 60 * 60 = 75 / 60 * 60))).map Tick.size).sum
      ∧ bar.trade_count = (ticksW8.filter
            (fun u => decide (u.ts / 60 * 60 = 75 / 60 * 60))).length :=
  resample_floor_buckets_and_volume ticksW8 60 (by decide) (by decide)
    { symbol := "ethusdt", ts := 75, price := 11, size := 3 / 2 } (by with_unfolding_all decide)

end CQA
